import Mathlib

/-!
Verification of the background-image module of this swaylock fork
(`background-image.c`): the mode parser `parse_background_mode`, the
loader `load_background_image`, and the compositor
`render_background_image`.

Modelling conventions:
* C `double` values are modelled as `ℚ` (the computations at issue are
  ratios, halves and comparisons, which are exact).
* C `int` buffer dimensions are `ℤ`, cast to `ℚ` where the C code casts
  to `double`.
* The C cast `(int) d` truncates toward zero; it is modelled by
  `truncInt`.
* The cairo drawing context is modelled by the part of its state the
  code touches: the current transformation matrix (only scaling and
  translation components, since the code only ever calls `cairo_scale`)
  and the save/restore stack.  `cairo_set_source_surface` offsets are
  recorded in the paint record rather than in the matrix, matching
  the semantics of cairo (the offset is a property of the source pattern).
* The interactions of the loader with the outside world (fopen, MagickWand,
  tmpfile, cairo PNG decoding) are modelled by an environment `LoadEnv`
  giving the outcome of each external call, and the loader returns a
  record of its result, its logging, and the state of every resource it
  acquired, plus the ordered list of image-processing operations it
  issued.
-/

/-- Background modes, from `enum background_mode`. -/
inductive BackgroundMode where
  | STRETCH
  | FILL
  | FIT
  | CENTER
  | TILE
  | SOLID_COLOR
  | INVALID
deriving DecidableEq, Repr

/-- Model of `parse_background_mode`: the returned mode together with the
number of error messages logged (the C function logs once, via
`swaylock_log(LOG_ERROR, ...)`, exactly on the fall-through path). -/
def parse_background_mode (mode : String) : BackgroundMode × Nat :=
  if mode = "stretch" then (BackgroundMode.STRETCH, 0)
  else if mode = "fill" then (BackgroundMode.FILL, 0)
  else if mode = "fit" then (BackgroundMode.FIT, 0)
  else if mode = "center" then (BackgroundMode.CENTER, 0)
  else if mode = "tile" then (BackgroundMode.TILE, 0)
  else if mode = "solid_color" then (BackgroundMode.SOLID_COLOR, 0)
  else (BackgroundMode.INVALID, 1)

/-- C cast `(int) q` for a `double` value: truncation toward zero. -/
def truncInt (q : ℚ) : ℤ := if q < 0 then ⌈q⌉ else ⌊q⌋

/-- Current transformation matrix restricted to the components the code
can produce: axis scales and a translation (the code never shears or
rotates). -/
structure Mat where
  xx : ℚ
  yy : ℚ
  x0 : ℚ
  y0 : ℚ
deriving DecidableEq, Repr

/-- Identity transformation. -/
def Mat.identity : Mat := ⟨1, 1, 0, 0⟩

/-- Effect of `cairo_scale(cr, sx, sy)` on the CTM. -/
def Mat.scaleBy (m : Mat) (sx sy : ℚ) : Mat := ⟨m.xx * sx, m.yy * sy, m.x0, m.y0⟩

/-- Source set on the context before painting: either
`cairo_set_source_surface(cr, image, x, y)` with its user-space offset,
or the repeating surface pattern of the `TILE` path, anchored at the origin. -/
inductive SourceKind where
  | surface (offX offY : ℚ)
  | surfacePattern (repeats : Bool)
deriving DecidableEq, Repr

/-- Drawing-context state: current matrix and the `cairo_save` stack. -/
structure CairoState where
  matrix : Mat
  stack : List Mat
deriving DecidableEq, Repr

/-- Model of `cairo_save`. -/
def cairo_save (s : CairoState) : CairoState := ⟨s.matrix, s.matrix :: s.stack⟩

/-- Model of `cairo_restore`. -/
def cairo_restore (s : CairoState) : CairoState :=
  match s.stack with
  | [] => s
  | m :: rest => ⟨m, rest⟩

/-- Model of `cairo_scale`. -/
def cairo_scale (s : CairoState) (sx sy : ℚ) : CairoState :=
  ⟨s.matrix.scaleBy sx sy, s.stack⟩

/-- What `cairo_paint` consumed: the CTM in effect and the source that
was set. -/
structure PaintRecord where
  mat : Mat
  src : SourceKind
deriving DecidableEq, Repr

/-- Model of `render_background_image`.  `w`/`h` are the intrinsic
dimensions of the image surface (the C code reads them into `double width, height`),
`buffer_width`/`buffer_height` the C `int` parameters.  Returns the
context state after `cairo_restore` together with the paint record, or
`none` on the `assert(0)` branches (`SOLID_COLOR`, `INVALID`). -/
def render_background_image (s0 : CairoState) (w h : ℚ)
    (mode : BackgroundMode) (buffer_width buffer_height : ℤ) :
    Option (CairoState × PaintRecord) :=
  let s := cairo_save s0
  match mode with
  | BackgroundMode.STRETCH =>
      let s := cairo_scale s ((buffer_width : ℚ) / w) ((buffer_height : ℚ) / h)
      some (cairo_restore s, ⟨s.matrix, SourceKind.surface 0 0⟩)
  | BackgroundMode.FILL =>
      let window_ratio : ℚ := (buffer_width : ℚ) / (buffer_height : ℚ)
      let bg_ratio : ℚ := w / h
      if window_ratio > bg_ratio then
        let scale : ℚ := (buffer_width : ℚ) / w
        let s := cairo_scale s scale scale
        some (cairo_restore s,
          ⟨s.matrix, SourceKind.surface 0 ((buffer_height : ℚ) / 2 / scale - h / 2)⟩)
      else
        let scale : ℚ := (buffer_height : ℚ) / h
        let s := cairo_scale s scale scale
        some (cairo_restore s,
          ⟨s.matrix, SourceKind.surface ((buffer_width : ℚ) / 2 / scale - w / 2) 0⟩)
  | BackgroundMode.FIT =>
      let window_ratio : ℚ := (buffer_width : ℚ) / (buffer_height : ℚ)
      let bg_ratio : ℚ := w / h
      if window_ratio > bg_ratio then
        let scale : ℚ := (buffer_height : ℚ) / h
        let s := cairo_scale s scale scale
        some (cairo_restore s,
          ⟨s.matrix, SourceKind.surface ((buffer_width : ℚ) / 2 / scale - w / 2) 0⟩)
      else
        let scale : ℚ := (buffer_width : ℚ) / w
        let s := cairo_scale s scale scale
        some (cairo_restore s,
          ⟨s.matrix, SourceKind.surface 0 ((buffer_height : ℚ) / 2 / scale - h / 2)⟩)
  | BackgroundMode.CENTER =>
      some (cairo_restore s,
        ⟨s.matrix, SourceKind.surface
          ((truncInt ((buffer_width : ℚ) / 2 - w / 2) : ℚ))
          ((truncInt ((buffer_height : ℚ) / 2 - h / 2) : ℚ))⟩)
  | BackgroundMode.TILE =>
      some (cairo_restore s, ⟨s.matrix, SourceKind.surfacePattern true⟩)
  | BackgroundMode.SOLID_COLOR => none
  | BackgroundMode.INVALID => none

/-- A freshly created drawing context: identity CTM, empty save stack. -/
def cairo_initial : CairoState := ⟨Mat.identity, []⟩

/-- Divisors of the divisions `render_background_image` performs, in
source order, per mode: `STRETCH` divides by `width` and `height`; `FILL`
and `FIT` divide by `buffer_height` (window ratio) and `height`
(background ratio), then by `width` or `height` for the scale, and by `2`
and by `scale` in the offset computation; `CENTER` divides by `2` twice;
`TILE` divides nothing. -/
def render_divisors (w h : ℚ) (mode : BackgroundMode)
    (buffer_width buffer_height : ℤ) : List ℚ :=
  match mode with
  | BackgroundMode.STRETCH => [w, h]
  | BackgroundMode.FILL =>
      [(buffer_height : ℚ), h] ++
      (if (buffer_width : ℚ) / (buffer_height : ℚ) > w / h then
        [w, 2, (buffer_width : ℚ) / w, 2]
      else
        [h, 2, (buffer_height : ℚ) / h, 2])
  | BackgroundMode.FIT =>
      [(buffer_height : ℚ), h] ++
      (if (buffer_width : ℚ) / (buffer_height : ℚ) > w / h then
        [h, 2, (buffer_height : ℚ) / h, 2]
      else
        [w, 2, (buffer_width : ℚ) / w, 2])
  | BackgroundMode.CENTER => [2, 2]
  | BackgroundMode.TILE => []
  | BackgroundMode.SOLID_COLOR => []
  | BackgroundMode.INVALID => []

/-- Value of the ImageMagick `QuantumRange` for the standard Q16 quantum depth the
code is built against: the maximum channel value. -/
def QuantumRange : ℕ := 65535

/-- Model of the `actualOpacity` computation in the loader:
`const uint16_t actualOpacity = QuantumRange * (*opacity / 100);`
a `double` expression converted to `uint16_t`, i.e. truncated toward
zero (well defined on the 0–100 opacity domain of the configuration, where
the value fits in 16 bits). -/
def actualOpacity (opacity : ℚ) : ℕ :=
  (truncInt ((QuantumRange : ℚ) * (opacity / 100))).toNat % 2 ^ 16

/-- Outcomes of the external calls made by the loader: whether `fopen` succeeds,
whether `MagickReadImageFile` succeeds, whether the colorspace of the
decoded image is `CMYKColorspace`, whether `MagickTransformImageColorspace`
succeeds, and whether the status of the final cairo surface is
`CAIRO_STATUS_SUCCESS`. -/
structure LoadEnv where
  fopenOk : Bool
  readOk : Bool
  isCMYK : Bool
  transformOk : Bool
  surfaceOk : Bool
deriving DecidableEq, Repr

/-- Image-processing operations the loader can issue on the wand, with
their arguments as the code passes them. -/
inductive EngineOp where
  | transformColorspace
  | gaussianBlur (radiusX radiusY : ℚ)
  | colorize (colR colG colB colA blendR blendG blendB blendA : ℕ)
  | writeImage
deriving DecidableEq, Repr

/-- State at return from `load_background_image`: whether a surface
handle was returned, how many errors were logged, how often the
image-processing engine was initialized (`MagickWandGenesis`) and torn
down (`MagickWandTerminus`), whether the `fopen`ed image file and the
`tmpfile` handle are still open, whether the temporary file was created
at all, whether the `MagickWand` is still live, how many `PixelWand`s
are still live, and the ordered list of engine operations issued. -/
structure LoadResult where
  result : Bool
  errorsLogged : Nat
  genesisCalls : Nat
  terminusCalls : Nat
  imageFileOpen : Bool
  tmpFileCreated : Bool
  tmpFileOpen : Bool
  wandLive : Bool
  pixelWandsLive : Nat
  ops : List EngineOp
deriving DecidableEq, Repr

/-- Model of `load_background_image`, path by path:
1. `fopen` fails: log once, return `NULL` — nothing else was acquired.
2. `MagickReadImageFile` fails: log once, `goto end` destroys the wand,
   `image` is `NULL` so return `NULL`; the `FILE *imageFile` is never
   closed; no temporary file was created.
3. Otherwise: transform colorspace when CMYK (the return value is not
   inspected), blur when `*blur > 0`, colorize when `*opacity > 0`
   (creating two `PixelWand`s that are never destroyed; the colorize
   color is opaque black, the blend pixel has `actualOpacity` in all
   four channels), write the image to a fresh `tmpfile` handle, decode
   it through cairo, destroy the wand, and return the surface unless its
   status check fails (then log once and return `NULL`).  On all of
   these paths `imageFile` and the temporary-file handle remain open and
   no `MagickWandTerminus` is ever issued. -/
def load_background_image (env : LoadEnv) (blur opacity : ℚ) : LoadResult :=
  if env.fopenOk = false then
    { result := false, errorsLogged := 1, genesisCalls := 0, terminusCalls := 0,
      imageFileOpen := false, tmpFileCreated := false, tmpFileOpen := false,
      wandLive := false, pixelWandsLive := 0, ops := [] }
  else if env.readOk = false then
    { result := false, errorsLogged := 1, genesisCalls := 1, terminusCalls := 0,
      imageFileOpen := true, tmpFileCreated := false, tmpFileOpen := false,
      wandLive := false, pixelWandsLive := 0, ops := [] }
  else
    let ops : List EngineOp :=
      (if env.isCMYK then [EngineOp.transformColorspace] else []) ++
      (if blur > 0 then [EngineOp.gaussianBlur blur blur] else []) ++
      (if opacity > 0 then
        [EngineOp.colorize 0 0 0 QuantumRange
          (actualOpacity opacity) (actualOpacity opacity)
          (actualOpacity opacity) (actualOpacity opacity)]
      else []) ++
      [EngineOp.writeImage]
    let pixelWands : Nat := if opacity > 0 then 2 else 0
    if env.surfaceOk = false then
      { result := false, errorsLogged := 1, genesisCalls := 1, terminusCalls := 0,
        imageFileOpen := true, tmpFileCreated := true, tmpFileOpen := true,
        wandLive := false, pixelWandsLive := pixelWands, ops := ops }
    else
      { result := true, errorsLogged := 0, genesisCalls := 1, terminusCalls := 0,
        imageFileOpen := true, tmpFileCreated := true, tmpFileOpen := true,
        wandLive := false, pixelWandsLive := pixelWands, ops := ops }

/-- A sequence of `load_background_image` calls in one process. -/
def load_sequence (envs : List LoadEnv) (blur opacity : ℚ) : List LoadResult :=
  envs.map (fun env => load_background_image env blur opacity)

/-- Total number of engine initializations over a sequence of loads. -/
def totalGenesis (rs : List LoadResult) : Nat :=
  (rs.map LoadResult.genesisCalls).sum

/-- Total number of engine teardowns over a sequence of loads. -/
def totalTerminus (rs : List LoadResult) : Nat :=
  (rs.map LoadResult.terminusCalls).sum

/-- Recognizer for the colorize (opacity overlay) operation. -/
def EngineOp.isColorize : EngineOp → Bool
  | EngineOp.colorize _ _ _ _ _ _ _ _ => true
  | _ => false

/-- Full-coverage property of `FILL` mode at identity initial transform:
the paint uses a uniform scale equal to `max (bw/w) (bh/h)`, selected by
the single ratio comparison with the offset formula on the non-driving
axis, and the device-space footprint `[ox*scale, (ox+w)*scale] ×
[oy*scale, (oy+h)*scale]` of the image covers `[0,bw] × [0,bh]`. -/
def FillCovers (w h : ℚ) (bw bh : ℤ) : Prop :=
  ∃ s1 : CairoState, ∃ scale ox oy : ℚ,
    render_background_image cairo_initial w h BackgroundMode.FILL bw bh =
      some (s1, ⟨⟨scale, scale, 0, 0⟩, SourceKind.surface ox oy⟩) ∧
    scale = max ((bw : ℚ) / w) ((bh : ℚ) / h) ∧
    (if (bw : ℚ) / (bh : ℚ) > w / h then
      scale = (bw : ℚ) / w ∧ ox = 0 ∧ oy = (bh : ℚ) / 2 / scale - h / 2
    else
      scale = (bh : ℚ) / h ∧ oy = 0 ∧ ox = (bw : ℚ) / 2 / scale - w / 2) ∧
    ox * scale ≤ 0 ∧ (bw : ℚ) ≤ (ox + w) * scale ∧
    oy * scale ≤ 0 ∧ (bh : ℚ) ≤ (oy + h) * scale

/-- Containment property of `FIT` mode at identity initial transform:
the paint uses a uniform scale equal to `min (bw/w) (bh/h)` — the
opposite selection from `FILL` for the same ratio comparison — with the
same centering formula on the non-driving axis, the device-space
footprint of the image lies inside `[0,bw] × [0,bh]`, and at least one
axis matches the buffer exactly. -/
def FitContains (w h : ℚ) (bw bh : ℤ) : Prop :=
  ∃ s1 : CairoState, ∃ scale ox oy : ℚ,
    render_background_image cairo_initial w h BackgroundMode.FIT bw bh =
      some (s1, ⟨⟨scale, scale, 0, 0⟩, SourceKind.surface ox oy⟩) ∧
    scale = min ((bw : ℚ) / w) ((bh : ℚ) / h) ∧
    (if (bw : ℚ) / (bh : ℚ) > w / h then
      scale = (bh : ℚ) / h ∧ oy = 0 ∧ ox = (bw : ℚ) / 2 / scale - w / 2
    else
      scale = (bw : ℚ) / w ∧ ox = 0 ∧ oy = (bh : ℚ) / 2 / scale - h / 2) ∧
    0 ≤ ox * scale ∧ (ox + w) * scale ≤ (bw : ℚ) ∧
    0 ≤ oy * scale ∧ (oy + h) * scale ≤ (bh : ℚ) ∧
    ((ox * scale = 0 ∧ (ox + w) * scale = (bw : ℚ)) ∨
     (oy * scale = 0 ∧ (oy + h) * scale = (bh : ℚ)))

/-- Truncation toward zero agrees with the floor on nonnegative values. -/
theorem truncInt_of_nonneg (q : ℚ) (h : 0 ≤ q) : truncInt q = ⌊q⌋ := by
  simp [truncInt, not_lt.mpr h]

/-- C7: `parse_background_mode` maps each of the six recognized tokens
case-sensitively to its enum value with no error logged, and every other
string yields `INVALID` with exactly one error logged; the function is
total and never raises. -/
theorem parse_background_mode_correct :
    parse_background_mode "stretch" = (BackgroundMode.STRETCH, 0) ∧
    parse_background_mode "fill" = (BackgroundMode.FILL, 0) ∧
    parse_background_mode "fit" = (BackgroundMode.FIT, 0) ∧
    parse_background_mode "center" = (BackgroundMode.CENTER, 0) ∧
    parse_background_mode "tile" = (BackgroundMode.TILE, 0) ∧
    parse_background_mode "solid_color" = (BackgroundMode.SOLID_COLOR, 0) ∧
    ∀ s : String,
      s ∉ ["stretch", "fill", "fit", "center", "tile", "solid_color"] →
      parse_background_mode s = (BackgroundMode.INVALID, 1) := by
  refine ⟨rfl, rfl, rfl, rfl, rfl, rfl, ?_⟩
  intro s hs
  simp only [List.mem_cons, List.not_mem_nil, or_false, not_or] at hs
  obtain ⟨h1, h2, h3, h4, h5, h6⟩ := hs
  simp [parse_background_mode, h1, h2, h3, h4, h5, h6]

/-- Witness for C7 at the concrete unrecognized token `"unknown"`. -/
theorem parse_background_mode_correct_witness :
    "unknown" ∉ ["stretch", "fill", "fit", "center", "tile", "solid_color"] ∧
    parse_background_mode "unknown" = (BackgroundMode.INVALID, 1) :=
  ⟨by decide, parse_background_mode_correct.2.2.2.2.2.2 "unknown" (by decide)⟩

/-- C9: for every valid mode, `render_background_image` brackets all of
its transform manipulation between `cairo_save` and `cairo_restore`, so
the transform (and save stack) of the drawing context after the call equals
its value before the call. -/
theorem render_background_image_restores_context
    (s0 : CairoState) (w h : ℚ) (mode : BackgroundMode) (bw bh : ℤ)
    (hm1 : mode ≠ BackgroundMode.SOLID_COLOR)
    (hm2 : mode ≠ BackgroundMode.INVALID) :
    ∃ out : CairoState × PaintRecord,
      render_background_image s0 w h mode bw bh = some out ∧
      out.1.matrix = s0.matrix ∧ out.1.stack = s0.stack := by
  cases mode
  case STRETCH => exact ⟨_, rfl, rfl, rfl⟩
  case FILL =>
    simp only [render_background_image]
    split
    · exact ⟨_, rfl, rfl, rfl⟩
    · exact ⟨_, rfl, rfl, rfl⟩
  case FIT =>
    simp only [render_background_image]
    split
    · exact ⟨_, rfl, rfl, rfl⟩
    · exact ⟨_, rfl, rfl, rfl⟩
  case CENTER => exact ⟨_, rfl, rfl, rfl⟩
  case TILE => exact ⟨_, rfl, rfl, rfl⟩
  case SOLID_COLOR => exact absurd rfl hm1
  case INVALID => exact absurd rfl hm2

/-- Witness for C9 at a concrete valid mode and concrete dimensions. -/
theorem render_background_image_restores_context_witness :
    ∃ out : CairoState × PaintRecord,
      render_background_image cairo_initial 1 1 BackgroundMode.STRETCH 1 1 =
        some out ∧
      out.1.matrix = cairo_initial.matrix ∧ out.1.stack = cairo_initial.stack :=
  render_background_image_restores_context cairo_initial 1 1
    BackgroundMode.STRETCH 1 1 (by decide) (by decide)

/-- C1: in FILL mode, for every image with positive dimensions and every
buffer with positive dimensions, the code uses the uniform scale
`max (bw/w) (bh/h)`, selected by the single comparison `bw/bh > w/h`
(`bw/w` when true, else `bh/h`), offsets the non-driving axis by
`bufferDim/2/scale − srcDim/2` (0 on the driving axis), and the scaled,
offset image fully covers the buffer in both comparison cases. -/
theorem fill_mode_covers (w h : ℚ) (bw bh : ℤ)
    (hw : 0 < w) (hh : 0 < h) (hbw : 0 < bw) (hbh : 0 < bh) :
    FillCovers w h bw bh := by
  have hbwq : (0 : ℚ) < (bw : ℚ) := by exact_mod_cast hbw
  have hbhq : (0 : ℚ) < (bh : ℚ) := by exact_mod_cast hbh
  have hw0 : w ≠ 0 := ne_of_gt hw
  have hh0 : h ≠ 0 := ne_of_gt hh
  have hbw0 : (bw : ℚ) ≠ 0 := ne_of_gt hbwq
  have hbh0 : (bh : ℚ) ≠ 0 := ne_of_gt hbhq
  by_cases hr : (bw : ℚ) / (bh : ℚ) > w / h
  · have hmul : w * (bh : ℚ) < (bw : ℚ) * h := (div_lt_div_iff₀ hh hbhq).mp hr
    have hkey : (bh : ℚ) ≤ h * ((bw : ℚ) / w) := by
      rw [← mul_div_assoc, le_div_iff₀ hw]; nlinarith
    refine ⟨cairo_initial, (bw : ℚ) / w, 0, (bh : ℚ) / 2 / ((bw : ℚ) / w) - h / 2,
      ?_, ?_, ?_, ?_, ?_, ?_, ?_⟩
    · simp [render_background_image, cairo_initial, cairo_save, cairo_scale,
        cairo_restore, Mat.scaleBy, Mat.identity, hr]
    · have hle : (bh : ℚ) / h ≤ (bw : ℚ) / w := by
        rw [div_le_div_iff₀ hh hw]; nlinarith
      rw [max_eq_left hle]
    · rw [if_pos hr]; exact ⟨rfl, rfl, rfl⟩
    · simp
    · have hc : (0 + w) * ((bw : ℚ) / w) = (bw : ℚ) := by field_simp
      rw [hc]
    · have hc : ((bh : ℚ) / 2 / ((bw : ℚ) / w) - h / 2) * ((bw : ℚ) / w) =
          (bh : ℚ) / 2 - h * ((bw : ℚ) / w) / 2 := by
        field_simp; ring
      rw [hc]; linarith
    · have hc : ((bh : ℚ) / 2 / ((bw : ℚ) / w) - h / 2 + h) * ((bw : ℚ) / w) =
          (bh : ℚ) / 2 + h * ((bw : ℚ) / w) / 2 := by
        field_simp; ring
      rw [hc]; linarith
  · have hmul : (bw : ℚ) * h ≤ w * (bh : ℚ) :=
      (div_le_div_iff₀ hbhq hh).mp (not_lt.mp hr)
    have hkey : (bw : ℚ) ≤ w * ((bh : ℚ) / h) := by
      rw [← mul_div_assoc, le_div_iff₀ hh]; nlinarith
    refine ⟨cairo_initial, (bh : ℚ) / h, (bw : ℚ) / 2 / ((bh : ℚ) / h) - w / 2, 0,
      ?_, ?_, ?_, ?_, ?_, ?_, ?_⟩
    · simp [render_background_image, cairo_initial, cairo_save, cairo_scale,
        cairo_restore, Mat.scaleBy, Mat.identity, hr]
    · have hle : (bw : ℚ) / w ≤ (bh : ℚ) / h := by
        rw [div_le_div_iff₀ hw hh]; nlinarith
      rw [max_eq_right hle]
    · rw [if_neg hr]; exact ⟨rfl, rfl, rfl⟩
    · have hc : ((bw : ℚ) / 2 / ((bh : ℚ) / h) - w / 2) * ((bh : ℚ) / h) =
          (bw : ℚ) / 2 - w * ((bh : ℚ) / h) / 2 := by
        field_simp; ring
      rw [hc]; linarith
    · have hc : ((bw : ℚ) / 2 / ((bh : ℚ) / h) - w / 2 + w) * ((bh : ℚ) / h) =
          (bw : ℚ) / 2 + w * ((bh : ℚ) / h) / 2 := by
        field_simp; ring
      rw [hc]; linarith
    · simp
    · have hc : (0 + h) * ((bh : ℚ) / h) = (bh : ℚ) := by field_simp
      rw [hc]

/-- Witness for C1 at the test case given in the spec: 200×100 buffer, 100×100
image (scale 2 via the width). -/
theorem fill_mode_covers_witness :
    (0 : ℚ) < 100 ∧ (0 : ℤ) < 200 ∧ FillCovers 100 100 200 100 :=
  ⟨by norm_num, by decide,
    fill_mode_covers 100 100 200 100 (by norm_num) (by norm_num)
      (by decide) (by decide)⟩

/-- C2: in FIT mode, for every image with positive dimensions and every
buffer with positive dimensions, the code uses the uniform scale
`min (bw/w) (bh/h)` — the opposite selection from FILL for the same
comparison `bw/bh > w/h` — centers the non-driving axis with the same
formula, and the scaled, offset image is fully contained in the buffer
with at least one axis matching the buffer exactly. -/
theorem fit_mode_contains (w h : ℚ) (bw bh : ℤ)
    (hw : 0 < w) (hh : 0 < h) (hbw : 0 < bw) (hbh : 0 < bh) :
    FitContains w h bw bh := by
  have hbwq : (0 : ℚ) < (bw : ℚ) := by exact_mod_cast hbw
  have hbhq : (0 : ℚ) < (bh : ℚ) := by exact_mod_cast hbh
  have hw0 : w ≠ 0 := ne_of_gt hw
  have hh0 : h ≠ 0 := ne_of_gt hh
  have hbw0 : (bw : ℚ) ≠ 0 := ne_of_gt hbwq
  have hbh0 : (bh : ℚ) ≠ 0 := ne_of_gt hbhq
  by_cases hr : (bw : ℚ) / (bh : ℚ) > w / h
  · have hmul : w * (bh : ℚ) < (bw : ℚ) * h := (div_lt_div_iff₀ hh hbhq).mp hr
    have hkey : w * ((bh : ℚ) / h) ≤ (bw : ℚ) := by
      rw [← mul_div_assoc, div_le_iff₀ hh]; nlinarith
    have hexact : (0 + h) * ((bh : ℚ) / h) = (bh : ℚ) := by field_simp
    refine ⟨cairo_initial, (bh : ℚ) / h, (bw : ℚ) / 2 / ((bh : ℚ) / h) - w / 2, 0,
      ?_, ?_, ?_, ?_, ?_, ?_, ?_, ?_⟩
    · simp [render_background_image, cairo_initial, cairo_save, cairo_scale,
        cairo_restore, Mat.scaleBy, Mat.identity, hr]
    · have hle : (bh : ℚ) / h ≤ (bw : ℚ) / w := by
        rw [div_le_div_iff₀ hh hw]; nlinarith
      rw [min_eq_right hle]
    · rw [if_pos hr]; exact ⟨rfl, rfl, rfl⟩
    · have hc : ((bw : ℚ) / 2 / ((bh : ℚ) / h) - w / 2) * ((bh : ℚ) / h) =
          (bw : ℚ) / 2 - w * ((bh : ℚ) / h) / 2 := by
        field_simp; ring
      rw [hc]; linarith
    · have hc : ((bw : ℚ) / 2 / ((bh : ℚ) / h) - w / 2 + w) * ((bh : ℚ) / h) =
          (bw : ℚ) / 2 + w * ((bh : ℚ) / h) / 2 := by
        field_simp; ring
      rw [hc]; linarith
    · simp
    · rw [hexact]
    · exact Or.inr ⟨by simp, hexact⟩
  · have hmul : (bw : ℚ) * h ≤ w * (bh : ℚ) :=
      (div_le_div_iff₀ hbhq hh).mp (not_lt.mp hr)
    have hkey : h * ((bw : ℚ) / w) ≤ (bh : ℚ) := by
      rw [← mul_div_assoc, div_le_iff₀ hw]; nlinarith
    have hexact : (0 + w) * ((bw : ℚ) / w) = (bw : ℚ) := by field_simp
    refine ⟨cairo_initial, (bw : ℚ) / w, 0, (bh : ℚ) / 2 / ((bw : ℚ) / w) - h / 2,
      ?_, ?_, ?_, ?_, ?_, ?_, ?_, ?_⟩
    · simp [render_background_image, cairo_initial, cairo_save, cairo_scale,
        cairo_restore, Mat.scaleBy, Mat.identity, hr]
    · have hle : (bw : ℚ) / w ≤ (bh : ℚ) / h := by
        rw [div_le_div_iff₀ hw hh]; nlinarith
      rw [min_eq_left hle]
    · rw [if_neg hr]; exact ⟨rfl, rfl, rfl⟩
    · simp
    · rw [hexact]
    · have hc : ((bh : ℚ) / 2 / ((bw : ℚ) / w) - h / 2) * ((bw : ℚ) / w) =
          (bh : ℚ) / 2 - h * ((bw : ℚ) / w) / 2 := by
        field_simp; ring
      rw [hc]; linarith
    · have hc : ((bh : ℚ) / 2 / ((bw : ℚ) / w) - h / 2 + h) * ((bw : ℚ) / w) =
          (bh : ℚ) / 2 + h * ((bw : ℚ) / w) / 2 := by
        field_simp; ring
      rw [hc]; linarith
    · exact Or.inl ⟨by simp, hexact⟩

/-- Witness for C2 at the test case given in the spec: 100×200 buffer, 100×100
image (scale selected opposite to FILL). -/
theorem fit_mode_contains_witness :
    (0 : ℚ) < 100 ∧ (0 : ℤ) < 200 ∧ FitContains 100 100 100 200 :=
  ⟨by norm_num, by decide,
    fit_mode_contains 100 100 100 200 (by norm_num) (by norm_num)
      (by decide) (by decide)⟩

/-- Counterexample for C3: with a 1×1 buffer and a 2×2 image, the C
`(int)` cast truncates `1/2 − 2/2 = −1/2` toward zero, placing the image
at offset `(0, 0)`, while the claimed floor formula gives `−1` — so the
offsets are not the floors for negative fractional values. -/
theorem center_floor_counterexample :
    (∃ out : CairoState × PaintRecord,
      render_background_image cairo_initial 2 2 BackgroundMode.CENTER 1 1 =
        some out ∧
      out.2.src = SourceKind.surface ((truncInt (((1 : ℤ) : ℚ) / 2 - 2 / 2) : ℚ))
        ((truncInt (((1 : ℤ) : ℚ) / 2 - 2 / 2) : ℚ))) ∧
    truncInt (((1 : ℤ) : ℚ) / 2 - 2 / 2) = 0 ∧
    ⌊(((1 : ℤ) : ℚ) / 2 - 2 / 2)⌋ = -1 := by
  refine ⟨⟨_, rfl, rfl⟩, ?_, ?_⟩
  · rw [truncInt, if_pos (by norm_num)]
    rw [show (((1 : ℤ) : ℚ) / 2 - 2 / 2) = -(1 / 2) by norm_num]
    rw [Int.ceil_eq_iff]
    norm_num
  · rw [show (((1 : ℤ) : ℚ) / 2 - 2 / 2) = -(1 / 2) by norm_num]
    rw [Int.floor_eq_iff]
    norm_num

/-- C3 amended: CENTER mode applies no scaling and places the image at
offsets truncated toward zero (the C `(int)` cast) of `bw/2 − w/2` and
`bh/2 − h/2`; the truncation equals the floor exactly when the offset is
nonnegative — in particular a 101×101 buffer with a 50×50 image gives
offset `(25, 25)` — while negative fractional offsets (image larger than
the buffer on that axis) round toward zero instead of flooring. -/
theorem center_mode_offsets (w h : ℚ) (bw bh : ℤ) :
    ∃ out : CairoState × PaintRecord,
      render_background_image cairo_initial w h BackgroundMode.CENTER bw bh =
        some out ∧
      out.2.mat = Mat.identity ∧
      out.2.src = SourceKind.surface ((truncInt ((bw : ℚ) / 2 - w / 2) : ℚ))
        ((truncInt ((bh : ℚ) / 2 - h / 2) : ℚ)) ∧
      (0 ≤ (bw : ℚ) / 2 - w / 2 →
        truncInt ((bw : ℚ) / 2 - w / 2) = ⌊(bw : ℚ) / 2 - w / 2⌋) ∧
      (0 ≤ (bh : ℚ) / 2 - h / 2 →
        truncInt ((bh : ℚ) / 2 - h / 2) = ⌊(bh : ℚ) / 2 - h / 2⌋) :=
  ⟨_, rfl, rfl, rfl, fun hx => truncInt_of_nonneg _ hx,
    fun hy => truncInt_of_nonneg _ hy⟩

/-- Witness for C3 (amended) at the example given in the spec: 101×101 buffer,
50×50 image, offset `(25, 25)`. -/
theorem center_mode_offsets_witness :
    (∃ out : CairoState × PaintRecord,
      render_background_image cairo_initial 50 50 BackgroundMode.CENTER 101 101 =
        some out ∧
      out.2.mat = Mat.identity ∧
      out.2.src = SourceKind.surface
        ((truncInt (((101 : ℤ) : ℚ) / 2 - 50 / 2) : ℚ))
        ((truncInt (((101 : ℤ) : ℚ) / 2 - 50 / 2) : ℚ)) ∧
      (0 ≤ ((101 : ℤ) : ℚ) / 2 - 50 / 2 →
        truncInt (((101 : ℤ) : ℚ) / 2 - 50 / 2) =
          ⌊((101 : ℤ) : ℚ) / 2 - 50 / 2⌋) ∧
      (0 ≤ ((101 : ℤ) : ℚ) / 2 - 50 / 2 →
        truncInt (((101 : ℤ) : ℚ) / 2 - 50 / 2) =
          ⌊((101 : ℤ) : ℚ) / 2 - 50 / 2⌋)) ∧
    truncInt (((101 : ℤ) : ℚ) / 2 - 50 / 2) = 25 := by
  refine ⟨center_mode_offsets 50 50 101 101, ?_⟩
  rw [truncInt_of_nonneg _ (by norm_num)]
  rw [show (((101 : ℤ) : ℚ) / 2 - 50 / 2) = 51 / 2 by norm_num]
  rw [Int.floor_eq_iff]
  norm_num

/-- Per-call engine initialization count: `MagickWandGenesis` runs inside
`load_background_image`, after the `fopen` check, on every call. -/
theorem load_genesisCalls (env : LoadEnv) (blur opacity : ℚ) :
    (load_background_image env blur opacity).genesisCalls =
      if env.fopenOk then 1 else 0 := by
  rcases env with ⟨fo, ro, cm, tf, so⟩
  cases fo <;> cases ro <;> cases so <;> rfl

/-- No call ever issues `MagickWandTerminus`. -/
theorem load_terminusCalls (env : LoadEnv) (blur opacity : ℚ) :
    (load_background_image env blur opacity).terminusCalls = 0 := by
  rcases env with ⟨fo, ro, cm, tf, so⟩
  cases fo <;> cases ro <;> cases so <;> rfl

/-- With `opacity = 0` the opacity branch is not taken: no colorize
operation appears in the issued operation list. -/
theorem load_no_colorize_all (env : LoadEnv) (blur : ℚ) :
    ((load_background_image env blur 0).ops.all fun op => !op.isColorize) = true := by
  rcases env with ⟨fo, ro, cm, tf, so⟩
  cases fo <;> cases ro <;> cases cm <;> cases so <;>
    by_cases hb : blur > (0 : ℚ) <;>
      simp [load_background_image, hb, lt_irrefl, EngineOp.isColorize]

/-- Evaluation of the blend level at 50 percent opacity. -/
theorem actualOpacity_50_eq : actualOpacity 50 = 32767 := by
  have h : ((QuantumRange : ℚ) * ((50 : ℚ) / 100)) = 65535 / 2 := by
    norm_num [QuantumRange]
  have h2 : truncInt ((65535 : ℚ) / 2) = 32767 := by
    rw [truncInt, if_neg (by norm_num)]
    rw [Int.floor_eq_iff]
    norm_num
  rw [actualOpacity, h, h2]
  rfl

/-- Evaluation of the blend level at 100 percent opacity. -/
theorem actualOpacity_100_eq : actualOpacity 100 = QuantumRange := by
  have h : ((QuantumRange : ℚ) * ((100 : ℚ) / 100)) = 65535 := by
    norm_num [QuantumRange]
  have h2 : truncInt (65535 : ℚ) = 65535 := by
    rw [truncInt, if_neg (by norm_num)]
    rw [Int.floor_eq_iff]
    norm_num
  rw [actualOpacity, h, h2]
  rfl

/-- Counterexample for C4: a load of a CMYK image whose colorspace
conversion fails still returns a handle with no error logged: the
return value of the conversion is never inspected, so the failure is not
fatal and does not yield an absent result. -/
theorem colorspace_failure_counterexample :
    (load_background_image ⟨true, true, true, false, true⟩ 0 0).result = true ∧
    (load_background_image ⟨true, true, true, false, true⟩ 0 0).errorsLogged = 0 :=
  ⟨rfl, rfl⟩

/-- C4 amended: the loader attempts the CMYK→RGB conversion but ignores
its outcome entirely — the result of a load is identical whether the
conversion succeeds or fails — and when the image is CMYK the conversion
is issued before any further processing.  Loads are absent only for
file-open, decode, or surface-status failures. -/
theorem colorspace_failure_ignored :
    (∀ env : LoadEnv, ∀ blur opacity : ℚ, ∀ b1 b2 : Bool,
      load_background_image
          ⟨env.fopenOk, env.readOk, env.isCMYK, b1, env.surfaceOk⟩ blur opacity =
        load_background_image
          ⟨env.fopenOk, env.readOk, env.isCMYK, b2, env.surfaceOk⟩ blur opacity) ∧
    (∀ env : LoadEnv, ∀ blur opacity : ℚ,
      env.fopenOk = true → env.readOk = true → env.isCMYK = true →
      EngineOp.transformColorspace ∈ (load_background_image env blur opacity).ops) := by
  constructor
  · intro env blur opacity b1 b2
    rfl
  · intro env blur opacity h1 h2 h3
    rcases env with ⟨fo, ro, cm, tf, so⟩
    simp only at h1 h2 h3
    subst h1 h2 h3
    cases so <;> simp [load_background_image]

/-- Witness for C4 (amended) at a concrete CMYK environment with failing
conversion. -/
theorem colorspace_failure_ignored_witness :
    load_background_image ⟨true, true, true, false, true⟩ 0 0 =
      load_background_image ⟨true, true, true, true, true⟩ 0 0 ∧
    EngineOp.transformColorspace ∈
      (load_background_image ⟨true, true, true, false, true⟩ 0 0).ops :=
  ⟨colorspace_failure_ignored.1 ⟨true, true, true, false, true⟩ 0 0 false true,
   colorspace_failure_ignored.2 ⟨true, true, true, false, true⟩ 0 0 rfl rfl rfl⟩

/-- C5 evaluated at the failing inputs: a fully successful load (and a
load failing only the surface-status check, and one failing at decode)
returns with the `fopen`ed image file handle still open — it is never
`fclose`d on any path — and with the `tmpfile` handle still open on
every path that created it; with `opacity > 0` the two `PixelWand`s are
never destroyed.  The nonexistent-path part of the claim does hold:
absent result, exactly one error, no temporary file created. -/
theorem load_leaks_file_handles :
    (load_background_image ⟨true, true, false, true, true⟩ 0 0).result = true ∧
    (load_background_image ⟨true, true, false, true, true⟩ 0 0).imageFileOpen = true ∧
    (load_background_image ⟨true, true, false, true, true⟩ 0 0).tmpFileOpen = true ∧
    (load_background_image ⟨true, false, false, true, true⟩ 0 0).imageFileOpen = true ∧
    (load_background_image ⟨true, true, false, true, true⟩ 0 50).pixelWandsLive = 2 ∧
    (load_background_image ⟨false, true, false, true, true⟩ 0 0).result = false ∧
    (load_background_image ⟨false, true, false, true, true⟩ 0 0).errorsLogged = 1 ∧
    (load_background_image ⟨false, true, false, true, true⟩ 0 0).tmpFileCreated = false := by
  refine ⟨rfl, rfl, rfl, rfl, ?_, rfl, rfl, rfl⟩
  simp [load_background_image]

/-- Counterexample for C6: two successful loads in one process initialize
the image-processing engine twice — `MagickWandGenesis` is called inside
every load, not once before the first — and tear it down zero times, so
neither is the number of initializations one nor does a matching
teardown occur after the last use. -/
theorem engine_genesis_counterexample :
    totalGenesis (load_sequence [⟨true, true, false, true, true⟩,
      ⟨true, true, false, true, true⟩] 0 0) = 2 ∧
    totalTerminus (load_sequence [⟨true, true, false, true, true⟩,
      ⟨true, true, false, true, true⟩] 0 0) = 0 ∧
    (2 : ℕ) ≠ 1 :=
  ⟨rfl, rfl, by decide⟩

/-- C6 amended: the engine is initialized afresh inside every load call
that passes the `fopen` check (once per such call, not once per process)
and is never torn down: over any sequence of loads the initialization
count equals the number of loads whose file open succeeded and the
teardown count is zero. -/
theorem engine_genesis_per_call (envs : List LoadEnv) (blur opacity : ℚ) :
    totalGenesis (load_sequence envs blur opacity) =
      (envs.filter (fun e => e.fopenOk)).length ∧
    totalTerminus (load_sequence envs blur opacity) = 0 := by
  induction envs with
  | nil => constructor <;> rfl
  | cons e rest ih =>
    obtain ⟨ih1, ih2⟩ := ih
    constructor
    · simp only [load_sequence, List.map_cons, totalGenesis, List.sum_cons] at ih1 ⊢
      rw [load_genesisCalls, ih1, List.filter_cons]
      cases h : e.fopenOk <;> simp [Nat.add_comm]
    · simp only [load_sequence, List.map_cons, totalTerminus, List.sum_cons] at ih2 ⊢
      rw [load_terminusCalls, ih2]

/-- Counterexample for C8: at `opacity = 50` the computed blend level is
the `uint16_t` truncation `32767`, not the exact value
`QuantumRange * (50/100) = 65535/2`; the load at that opacity issues the
colorize with the truncated level in all four blend channels. -/
theorem opacity_level_counterexample :
    ((actualOpacity 50 : ℚ) ≠ (QuantumRange : ℚ) * (50 / 100)) ∧
    (load_background_image ⟨true, true, false, true, true⟩ 0 50).ops =
      [EngineOp.colorize 0 0 0 QuantumRange 32767 32767 32767 32767,
       EngineOp.writeImage] := by
  constructor
  · rw [actualOpacity_50_eq]
    norm_num [QuantumRange]
  · simp [load_background_image, actualOpacity_50_eq]

/-- C8 amended: when `opacity > 0` the loader colorizes with an opaque
black color and a blend pixel holding one common level in all four
channels, R, G, B and A — darkening the image proportionally — where the
level is the `uint16_t` truncation of `QuantumRange * (opacity/100)`
(not the exact product); `opacity = 100` yields the full level
`QuantumRange`, blacking the image out; `opacity = 0` does not take the
branch at all, so no colorize operation is issued and the image equals
the un-opacified decode. -/
theorem opacity_darken_overlay :
    (∀ env : LoadEnv, ∀ blur opacity : ℚ,
      env.fopenOk = true → env.readOk = true → 0 < opacity →
      EngineOp.colorize 0 0 0 QuantumRange (actualOpacity opacity)
        (actualOpacity opacity) (actualOpacity opacity) (actualOpacity opacity)
        ∈ (load_background_image env blur opacity).ops) ∧
    (∀ opacity : ℚ, 0 < opacity → opacity ≤ 100 →
      (actualOpacity opacity : ℤ) =
        truncInt ((QuantumRange : ℚ) * (opacity / 100))) ∧
    actualOpacity 100 = QuantumRange ∧
    (∀ env : LoadEnv, ∀ blur : ℚ,
      ∀ op ∈ (load_background_image env blur 0).ops, op.isColorize = false) := by
  refine ⟨?_, ?_, actualOpacity_100_eq, ?_⟩
  · intro env blur opacity h1 h2 hop
    rcases env with ⟨fo, ro, cm, tf, so⟩
    simp only at h1 h2
    subst h1 h2
    cases so <;> simp [load_background_image, hop]
  · intro opacity h0 h100
    have hq0 : 0 ≤ (QuantumRange : ℚ) * (opacity / 100) := by positivity
    have hq1 : (QuantumRange : ℚ) * (opacity / 100) ≤ 65535 := by
      have hq : (QuantumRange : ℚ) = 65535 := by norm_num [QuantumRange]
      rw [hq]
      nlinarith
    have htr : truncInt ((QuantumRange : ℚ) * (opacity / 100)) =
        ⌊(QuantumRange : ℚ) * (opacity / 100)⌋ := truncInt_of_nonneg _ hq0
    have hfl0 : 0 ≤ ⌊(QuantumRange : ℚ) * (opacity / 100)⌋ :=
      Int.floor_nonneg.mpr hq0
    have hfl1 : ⌊(QuantumRange : ℚ) * (opacity / 100)⌋ ≤ 65535 := by
      have hle : (⌊(QuantumRange : ℚ) * (opacity / 100)⌋ : ℚ) ≤ 65535 :=
        le_trans (Int.floor_le _) hq1
      exact_mod_cast hle
    simp only [actualOpacity, htr]
    rw [Nat.mod_eq_of_lt (by omega)]
    exact Int.toNat_of_nonneg hfl0
  · intro env blur op hop
    have h := load_no_colorize_all env blur
    rw [List.all_eq_true] at h
    have h2 := h op hop
    simpa using h2

/-- Witness for C8 (amended) at a concrete full environment with
`opacity = 50`. -/
theorem opacity_darken_overlay_witness :
    ((0 : ℚ) < 50 ∧ (50 : ℚ) ≤ 100) ∧
    EngineOp.colorize 0 0 0 QuantumRange (actualOpacity 50) (actualOpacity 50)
      (actualOpacity 50) (actualOpacity 50)
      ∈ (load_background_image ⟨true, true, false, true, true⟩ 0 50).ops ∧
    (actualOpacity 50 : ℤ) = truncInt ((QuantumRange : ℚ) * (50 / 100)) :=
  ⟨⟨by norm_num, by norm_num⟩,
   opacity_darken_overlay.1 ⟨true, true, false, true, true⟩ 0 50 rfl rfl
     (by norm_num),
   opacity_darken_overlay.2.1 50 (by norm_num) (by norm_num)⟩

/-- Counterexample for C10: the stated precondition (positive image
width and height and positive `buffer_height`) does not cover the
division by `scale` in the offset computation: in `FIT` mode with
`buffer_width = 0` (and `w = h = buffer_height = 1`, all the claimed
preconditions satisfied) the selected scale is `0/1 = 0` and the code
divides `buffer_height / 2` by that zero scale. -/
theorem render_division_by_zero_counterexample :
    (0 : ℚ) < 1 ∧ (0 : ℤ) < 1 ∧
    (0 : ℚ) ∈ render_divisors 1 1 BackgroundMode.FIT 0 1 := by
  refine ⟨by norm_num, by decide, ?_⟩
  norm_num [render_divisors]

/-- C10 amended: `render_background_image` performs unguarded divisions
by the image width and height, by `buffer_height`, and — in the FILL
and FIT offset computations — by the selected scale factor; under the
strengthened precondition that width, height and `buffer_height` are
strictly positive and `buffer_width` is nonzero (which the code never
checks), every divisor is nonzero and, for each mode the function
accepts, the scale components of the painted transform are nonzero, so the
computed geometry is finite. -/
theorem render_divisors_nonzero (w h : ℚ) (bw bh : ℤ) (mode : BackgroundMode)
    (hw : 0 < w) (hh : 0 < h) (hbh : 0 < bh) (hbw : bw ≠ 0) :
    (∀ d ∈ render_divisors w h mode bw bh, d ≠ 0) ∧
    (mode ≠ BackgroundMode.SOLID_COLOR → mode ≠ BackgroundMode.INVALID →
      ∃ out : CairoState × PaintRecord,
        render_background_image cairo_initial w h mode bw bh = some out ∧
        out.2.mat.xx ≠ 0 ∧ out.2.mat.yy ≠ 0) := by
  have hw0 : w ≠ 0 := ne_of_gt hw
  have hh0 : h ≠ 0 := ne_of_gt hh
  have hbhQ : ((bh : ℤ) : ℚ) ≠ 0 := Int.cast_ne_zero.mpr (ne_of_gt hbh)
  have hbwQ : ((bw : ℤ) : ℚ) ≠ 0 := Int.cast_ne_zero.mpr hbw
  have h2 : (2 : ℚ) ≠ 0 := by norm_num
  constructor
  · intro d hd
    cases mode
    case STRETCH =>
      simp only [render_divisors, List.mem_cons, List.not_mem_nil, or_false] at hd
      rcases hd with rfl | rfl
      · exact hw0
      · exact hh0
    case FILL =>
      by_cases hr : (bw : ℚ) / (bh : ℚ) > w / h <;>
        simp only [render_divisors, hr, if_true, if_false, List.cons_append,
          List.nil_append, List.mem_cons, List.not_mem_nil, or_false] at hd
      · rcases hd with rfl | rfl | rfl | rfl | rfl | rfl
        exacts [hbhQ, hh0, hw0, h2, div_ne_zero hbwQ hw0, h2]
      · rcases hd with rfl | rfl | rfl | rfl | rfl | rfl
        exacts [hbhQ, hh0, hh0, h2, div_ne_zero hbhQ hh0, h2]
    case FIT =>
      by_cases hr : (bw : ℚ) / (bh : ℚ) > w / h <;>
        simp only [render_divisors, hr, if_true, if_false, List.cons_append,
          List.nil_append, List.mem_cons, List.not_mem_nil, or_false] at hd
      · rcases hd with rfl | rfl | rfl | rfl | rfl | rfl
        exacts [hbhQ, hh0, hh0, h2, div_ne_zero hbhQ hh0, h2]
      · rcases hd with rfl | rfl | rfl | rfl | rfl | rfl
        exacts [hbhQ, hh0, hw0, h2, div_ne_zero hbwQ hw0, h2]
    case CENTER =>
      simp only [render_divisors, List.mem_cons, List.not_mem_nil, or_false] at hd
      rcases hd with rfl | rfl
      · exact h2
      · exact h2
    case TILE => simp [render_divisors] at hd
    case SOLID_COLOR => simp [render_divisors] at hd
    case INVALID => simp [render_divisors] at hd
  · intro hm1 hm2
    cases mode
    case STRETCH =>
      refine ⟨_, rfl, ?_, ?_⟩ <;>
        simp [cairo_scale, cairo_save, Mat.scaleBy, cairo_initial, Mat.identity,
          div_ne_zero, hbwQ, hbhQ, hw0, hh0]
    case FILL =>
      simp only [render_background_image]
      split
      · refine ⟨_, rfl, ?_, ?_⟩ <;>
          simp [cairo_scale, cairo_save, Mat.scaleBy, cairo_initial, Mat.identity,
            div_ne_zero, hbwQ, hw0]
      · refine ⟨_, rfl, ?_, ?_⟩ <;>
          simp [cairo_scale, cairo_save, Mat.scaleBy, cairo_initial, Mat.identity,
            div_ne_zero, hbhQ, hh0]
    case FIT =>
      simp only [render_background_image]
      split
      · refine ⟨_, rfl, ?_, ?_⟩ <;>
          simp [cairo_scale, cairo_save, Mat.scaleBy, cairo_initial, Mat.identity,
            div_ne_zero, hbhQ, hh0]
      · refine ⟨_, rfl, ?_, ?_⟩ <;>
          simp [cairo_scale, cairo_save, Mat.scaleBy, cairo_initial, Mat.identity,
            div_ne_zero, hbwQ, hw0]
    case CENTER =>
      refine ⟨_, rfl, ?_, ?_⟩ <;>
        simp [cairo_save, cairo_initial, Mat.identity]
    case TILE =>
      refine ⟨_, rfl, ?_, ?_⟩ <;>
        simp [cairo_save, cairo_initial, Mat.identity]
    case SOLID_COLOR => exact absurd rfl hm1
    case INVALID => exact absurd rfl hm2

/-- Witness for C10 (amended) at concrete positive dimensions in FIT
mode. -/
theorem render_divisors_nonzero_witness :
    ((0 : ℚ) < 1 ∧ (0 : ℤ) < 1 ∧ (1 : ℤ) ≠ 0) ∧
    (∀ d ∈ render_divisors 1 1 BackgroundMode.FIT 1 1, d ≠ 0) ∧
    (BackgroundMode.FIT ≠ BackgroundMode.SOLID_COLOR →
      BackgroundMode.FIT ≠ BackgroundMode.INVALID →
      ∃ out : CairoState × PaintRecord,
        render_background_image cairo_initial 1 1 BackgroundMode.FIT 1 1 =
          some out ∧
        out.2.mat.xx ≠ 0 ∧ out.2.mat.yy ≠ 0) :=
  ⟨⟨by norm_num, by decide, by decide⟩,
   (render_divisors_nonzero 1 1 1 1 BackgroundMode.FIT (by norm_num) (by norm_num)
     (by decide) (by decide)).1,
   (render_divisors_nonzero 1 1 1 1 BackgroundMode.FIT (by norm_num) (by norm_num)
     (by decide) (by decide)).2⟩

/-- Witness for C6 (amended) at a concrete two-load sequence in which one
load fails its file open. -/
theorem engine_genesis_per_call_witness :
    totalGenesis (load_sequence [⟨true, true, false, true, true⟩,
      ⟨false, true, false, true, true⟩] 0 0) =
      (([⟨true, true, false, true, true⟩,
         ⟨false, true, false, true, true⟩] : List LoadEnv).filter
        (fun e => e.fopenOk)).length ∧
    totalTerminus (load_sequence [⟨true, true, false, true, true⟩,
      ⟨false, true, false, true, true⟩] 0 0) = 0 :=
  engine_genesis_per_call
    [⟨true, true, false, true, true⟩, ⟨false, true, false, true, true⟩] 0 0
